import Mathlib

/-!
Shallow embedding of the register codec of `src/protocol.rs` from the
R4DCB08 temperature collector repository, together with theorems settling
the specification claims about it.

Modelling conventions:
* A Modbus register word (`type Word = u16` in Rust) is a `Nat`; where
  16-bitness matters the bound `w < 65536` appears as a hypothesis.
* `Temperature` wraps an `f32` in Rust, but every value the codec produces
  or writes lies on the 0.1 °C grid (the spec data model: "signed decimal,
  1 implied decimal digit").  We represent such a value by its exact number
  of tenths of a degree (an `Int`), `Temperature.val t` standing for the
  f32 nearest to `t / 10`.  This abstraction is exact for the codec:
  - decoding performs only exact f32 steps (u16 → f32 conversion and the
    subtraction of 65536 are exact below 2^24) followed by one correctly
    rounded division by 10, and `t ↦ fl32(t/10)` is injective for
    `|t| ≤ 32768` (grid spacing 0.1 is far above the f32 ulp
    2^-12 ≈ 0.000244 at magnitude 3276.8);
  - for a grid value `v = fl32(t/10)` with `|t| ≤ 32767`, the f32 product
    `v * 10.0` computed by the encoder rounds to exactly the integer `t`,
    and `65536.0 + t` is exact (both facts check exhaustively over the
    whole range), so the truncating `as u16` cast returns `t` resp.
    `65536 + t` exactly as laid out in the encoder definition below.
* Fallible Rust functions returning `Result` become `Except`.
* Rust panics (array indexing out of bounds) are modelled by `Option`,
  `none` standing for the panic.
-/

namespace R4DCB08

/-- `NUMBER_OF_CHANNELS` from protocol.rs: the module has 8 temperature channels. -/
def NUMBER_OF_CHANNELS : Nat := 8

/-- The `protocol::Error` enum: errors of decoding, encoding and validation. -/
inductive PError where
  | unexpectedDataLength (expected got : Nat)
  | invalidData (details : String)
  | invalidValueCode (entity : String) (code : Nat)
  | encodeError (reason : String)
  deriving DecidableEq

/-- The `Temperature` type of protocol.rs: either the `Temperature::NAN`
sentinel (sensor absent/error) or a numeric value, represented by its exact
count of tenths of a degree Celsius (see the module docstring for why this
is a faithful image of the f32 the Rust struct stores). -/
inductive Temperature where
  | nan
  | val (tenths : Int)
  deriving DecidableEq

/-- `Temperature::MIN` (−3276.7 °C) in tenths of a degree. -/
def Temperature.MIN : Int := -32767

/-- `Temperature::MAX` (3276.7 °C) in tenths of a degree. -/
def Temperature.MAX : Int := 32767

/-- `Temperature::decode_from_holding_registers`: word `0x8000` is the NAN
sentinel; words above `0x8000` are negative, `(word − 65536) / 10.0`;
all other words are non-negative, `word / 10.0`.  In tenths: `word − 65536`
resp. `word`. -/
def Temperature.decode_from_holding_registers (word : Nat) : Temperature :=
  if word = 0x8000 then .nan
  else if 0x8000 < word then .val ((word : Int) - 65536)
  else .val (word : Int)

/-- `Temperature::encode_for_write_register`: NAN is rejected with an
encode error; otherwise the source computes `(v * 10.0) as u16` when
`v >= 0.0` and `(65536.0 + v * 10.0) as u16` when `v < 0.0`.  On the grid
value `v = fl32(t/10)` these f32 computations produce exactly `t` resp.
`65536 + t` (exhaustively checked fact, see module docstring). -/
def Temperature.encode_for_write_register : Temperature → Except PError Nat
  | .nan => .error (.encodeError "Temperature value is NAN, which cannot be encoded.")
  | .val t => if 0 ≤ t then .ok t.toNat else .ok (65536 + t).toNat

/-- A raw `f32` argument of `Temperature::try_from`, at the 0.1 °C
quantization of the spec data model: either a float NaN or a grid value
given by its tenths count. -/
inductive RawFloat where
  | nan
  | num (tenths : Int)
  deriving DecidableEq

/-- `ErrorDegreeCelsiusOutOfRange`: carries the offending raw value. -/
structure ErrorDegreeCelsiusOutOfRange where
  raw : RawFloat
  deriving DecidableEq

/-- `Temperature::try_from(f32)`: NaN is explicitly rejected (the NAN
sentinel is only reachable via the constant), and out-of-range values are
rejected; values in `[MIN, MAX]` are accepted unchanged. -/
def Temperature.try_from : RawFloat → Except ErrorDegreeCelsiusOutOfRange Temperature
  | .nan => .error ⟨.nan⟩
  | .num t =>
    if Temperature.MIN ≤ t ∧ t ≤ Temperature.MAX then .ok (.val t)
    else .error ⟨.num t⟩

/-- `Temperatures`: the readings of all 8 channels.  The Rust field is a
fixed array `[Temperature; 8]`; we use a list, whose length is 8 for every
value produced by the decoder. -/
structure Temperatures where
  temps : List Temperature
  deriving DecidableEq

/-- `Temperatures::decode_from_holding_registers`: requires exactly
`NUMBER_OF_CHANNELS` words, then decodes each word independently with the
single-temperature rule (the source fills the array in a loop; mapping the
decoder over the words is the same element-by-element computation). -/
def Temperatures.decode_from_holding_registers (words : List Nat) :
    Except PError Temperatures :=
  if words.length ≠ NUMBER_OF_CHANNELS then
    .error (.unexpectedDataLength NUMBER_OF_CHANNELS words.length)
  else
    .ok ⟨words.map Temperature.decode_from_holding_registers⟩

/-- The `Index<usize>` impl on `Temperatures`: `&self.0[index]`, which
panics when `index` is out of bounds.  `none` models the panic. -/
def Temperatures.index (ts : Temperatures) (i : Nat) : Option Temperature :=
  ts.temps[i]?

/-- The validated channel index type `Channel` (a `u8` in Rust). -/
structure Channel where
  value : Nat
  deriving DecidableEq

/-- `Channel::MIN`. -/
def Channel.MIN : Nat := 0

/-- `Channel::MAX = NUMBER_OF_CHANNELS - 1`. -/
def Channel.MAX : Nat := NUMBER_OF_CHANNELS - 1

/-- `ErrorChannelOutOfRange`: carries the offending channel value. -/
structure ErrorChannelOutOfRange where
  value : Nat
  deriving DecidableEq

/-- `Channel::try_from(u8)`: accepts exactly the range `[MIN, MAX]`. -/
def Channel.try_from (value : Nat) : Except ErrorChannelOutOfRange Channel :=
  if Channel.MIN ≤ value ∧ value ≤ Channel.MAX then .ok ⟨value⟩
  else .error ⟨value⟩

/-- `TemperatureCorrection`: per-channel additive corrections, same shape
as `Temperatures`. -/
structure TemperatureCorrection where
  corrections : List Temperature
  deriving DecidableEq

/-- `TemperatureCorrection::ADDRESS = 0x0008`, the base register address of
the correction block. -/
def TemperatureCorrection.ADDRESS : Nat := 0x0008

/-- `TemperatureCorrection::decode_from_holding_registers`: identical rule
to `Temperatures` (the source duplicates the loop; decoding is the same
per-element temperature rule). -/
def TemperatureCorrection.decode_from_holding_registers (words : List Nat) :
    Except PError TemperatureCorrection :=
  if words.length ≠ NUMBER_OF_CHANNELS then
    .error (.unexpectedDataLength NUMBER_OF_CHANNELS words.length)
  else
    .ok ⟨words.map Temperature.decode_from_holding_registers⟩

/-- The `Index<usize>` impl on `TemperatureCorrection`: panics out of
bounds; `none` models the panic. -/
def TemperatureCorrection.index (cs : TemperatureCorrection) (i : Nat) :
    Option Temperature :=
  cs.corrections[i]?

/-- `TemperatureCorrection::channel_address`: `Self::ADDRESS + *channel`. -/
def TemperatureCorrection.channel_address (channel : Channel) : Nat :=
  TemperatureCorrection.ADDRESS + channel.value

/-- The `BaudRate` enum of protocol.rs. -/
inductive BaudRate where
  | b1200
  | b2400
  | b4800
  | b9600
  | b19200
  deriving DecidableEq

/-- `From<BaudRate> for u16`: the literal baud rate of each variant. -/
def BaudRate.to_u16 : BaudRate → Nat
  | .b1200 => 1200
  | .b2400 => 2400
  | .b4800 => 4800
  | .b9600 => 9600
  | .b19200 => 19200

/-- `BaudRate::decode_from_holding_registers`: exactly one word expected;
raw codes 0–4 map to the five rates, anything else is an invalid-value-code
error naming the entity "BaudRate" and the offending code. -/
def BaudRate.decode_from_holding_registers (words : List Nat) :
    Except PError BaudRate :=
  if words.length ≠ 1 then .error (.unexpectedDataLength 1 words.length)
  else
    match words.headD 0 with
    | 0 => .ok .b1200
    | 1 => .ok .b2400
    | 2 => .ok .b4800
    | 3 => .ok .b9600
    | 4 => .ok .b19200
    | invalid_code => .error (.invalidValueCode "BaudRate" invalid_code)

/-- The validated Modbus device address type `Address` (a `u8` in Rust). -/
structure Address where
  value : Nat
  deriving DecidableEq

/-- `Address::MIN`, the smallest assignable device address. -/
def Address.MIN : Nat := 1

/-- `Address::MAX`, the largest assignable device address. -/
def Address.MAX : Nat := 247

/-- `ErrorAddressOutOfRange`: carries the offending address byte. -/
structure ErrorAddressOutOfRange where
  value : Nat
  deriving DecidableEq

/-- `Address::try_from(u8)`: accepts exactly the assignable range
`[MIN, MAX] = [1, 247]`; in particular 0, 248 and the broadcast value 255
are rejected. -/
def Address.try_from (value : Nat) : Except ErrorAddressOutOfRange Address :=
  if Address.MIN ≤ value ∧ value ≤ Address.MAX then .ok ⟨value⟩
  else .error ⟨value⟩

/-- The `details` text of the non-zero-upper-byte failure of the address
decoder (the source formats the offending word in hex; the claims depend
only on the error kind, the word is rendered in decimal here). -/
def Address.upper_byte_message (w : Nat) : String :=
  "Upper byte of address register is non-zero (value: " ++ toString w ++ ")"

/-- The `Display` text of `ErrorAddressOutOfRange`, which the address
decoder embeds in its `InvalidData` error. -/
def Address.out_of_range_message (v : Nat) : String :=
  "The address value " ++ toString v ++
    " is outside the valid assignable range of 1 to 247"

/-- `Address::decode_from_holding_registers`: exactly one word expected;
`word_value & 0xFF00 != 0` (for a u16: the upper byte `word_value / 256`
is non-zero) is an `InvalidData` error; otherwise the lower byte
(`word_value as u8`, i.e. `% 256`) is validated through `Address::try_from`
and a range failure is wrapped into an `InvalidData` error carrying the
out-of-range message. -/
def Address.decode_from_holding_registers (words : List Nat) :
    Except PError Address :=
  if words.length ≠ 1 then .error (.unexpectedDataLength 1 words.length)
  else
    let word_value := words.headD 0
    if word_value / 256 ≠ 0 then
      .error (.invalidData (Address.upper_byte_message word_value))
    else
      match Address.try_from (word_value % 256) with
      | .ok address => .ok address
      | .error e => .error (.invalidData (Address.out_of_range_message e.value))

/-- The `AutomaticReport` interval type (a `u8` count of seconds). -/
structure AutomaticReport where
  interval : Nat
  deriving DecidableEq

/-- `AutomaticReport::as_secs`. -/
def AutomaticReport.as_secs (r : AutomaticReport) : Nat := r.interval

/-- `AutomaticReport::DURATION_MIN` (0 seconds = disabled). -/
def AutomaticReport.DURATION_MIN : Nat := 0

/-- `AutomaticReport::DURATION_MAX` (255 seconds). -/
def AutomaticReport.DURATION_MAX : Nat := 255

/-- `std::time::Duration`: whole seconds plus a sub-second nanosecond part. -/
structure Duration where
  secs : Nat
  nanos : Nat
  deriving DecidableEq

/-- `Duration::as_secs`: the whole-second part, sub-second part dropped. -/
def Duration.as_secs (d : Duration) : Nat := d.secs

/-- `Duration::from_millis`. -/
def Duration.from_millis (ms : Nat) : Duration :=
  ⟨ms / 1000, (ms % 1000) * 1000000⟩

/-- `Duration::from_secs`. -/
def Duration.from_secs (s : Nat) : Duration := ⟨s, 0⟩

/-- `ErrorDurationOutOfRange`: carries the truncated whole-second count. -/
structure ErrorDurationOutOfRange where
  secs : Nat
  deriving DecidableEq

/-- `TryFrom<Duration> for AutomaticReport`: truncates the duration to
whole seconds via `as_secs`, then validates the result lies in
`[DURATION_MIN, DURATION_MAX]`; on failure the error carries the truncated
second count. -/
def AutomaticReport.try_from_duration (d : Duration) :
    Except ErrorDurationOutOfRange AutomaticReport :=
  let secs := d.as_secs
  if AutomaticReport.DURATION_MIN ≤ secs ∧ secs ≤ AutomaticReport.DURATION_MAX then
    .ok ⟨secs⟩
  else
    .error ⟨secs⟩

/-- Equality of `Except` values is decidable when it is for both
components; lets concrete codec results be evaluated by `decide`. -/
instance {ε α : Type} [DecidableEq ε] [DecidableEq α] :
    DecidableEq (Except ε α) := fun x y =>
  match x, y with
  | .ok a, .ok b =>
    match decEq a b with
    | isTrue h => isTrue (h ▸ rfl)
    | isFalse h => isFalse fun he => h (Except.ok.inj he)
  | .error a, .error b =>
    match decEq a b with
    | isTrue h => isTrue (h ▸ rfl)
    | isFalse h => isFalse fun he => h (Except.error.inj he)
  | .ok _, .error _ => isFalse fun he => Except.noConfusion he
  | .error _, .ok _ => isFalse fun he => Except.noConfusion he

/-- C1: for every 16-bit word `w`, `Temperature::decode_from_holding_registers`
returns NaN exactly when `w = 0x8000`, the negative value `(w − 65536)/10`
when `w > 0x8000`, and the non-negative value `w/10` otherwise (values in
tenths of a degree); in particular `decode 0x7FFF = 3276.7`,
`decode 0x8001 = −3276.7`, and no word ever decodes to the signed value
−3276.8 (−32768 tenths). -/
theorem temperature_decode_characterization :
    (∀ w : Nat, w < 65536 →
      ((Temperature.decode_from_holding_registers w = .nan ↔ w = 0x8000) ∧
       (0x8000 < w →
         Temperature.decode_from_holding_registers w = .val ((w : Int) - 65536)) ∧
       (w < 0x8000 →
         Temperature.decode_from_holding_registers w = .val (w : Int)))) ∧
    Temperature.decode_from_holding_registers 0x7FFF = .val 32767 ∧
    Temperature.decode_from_holding_registers 0x8001 = .val (-32767) ∧
    (∀ w : Nat, Temperature.decode_from_holding_registers w ≠ .val (-32768)) := by
  refine ⟨?_, by decide, by decide, ?_⟩
  · intro w _
    rcases lt_trichotomy w 0x8000 with hlt | heq | hgt
    · have hb1 : w ≠ 0x8000 := by omega
      have hb2 : ¬ 0x8000 < w := by omega
      have e : Temperature.decode_from_holding_registers w = .val (w : Int) := by
        unfold Temperature.decode_from_holding_registers
        rw [if_neg hb1, if_neg hb2]
      refine ⟨?_, fun h => absurd h hb2, fun _ => e⟩
      rw [e]
      constructor
      · intro h
        simp at h
      · intro h
        exact absurd h hb1
    · subst heq
      refine ⟨by simp [Temperature.decode_from_holding_registers],
        fun h => absurd h (by omega), fun h => absurd h (by omega)⟩
    · have hb1 : w ≠ 0x8000 := by omega
      have e : Temperature.decode_from_holding_registers w =
          .val ((w : Int) - 65536) := by
        unfold Temperature.decode_from_holding_registers
        rw [if_neg hb1, if_pos hgt]
      refine ⟨?_, fun _ => e, fun h => absurd h (by omega)⟩
      rw [e]
      constructor
      · intro h
        simp at h
      · intro h
        exact absurd h hb1
  · intro w h
    unfold Temperature.decode_from_holding_registers at h
    split_ifs at h with h1 h2
    · simp only [Temperature.val.injEq] at h
      omega
    · simp only [Temperature.val.injEq] at h
      omega

/-- Witness for C1: the characterization applied at the concrete words 219
(21.9 °C) and 65424 (−11.2 °C). -/
theorem temperature_decode_characterization_witness :
    Temperature.decode_from_holding_registers 219 = .val 219 ∧
    Temperature.decode_from_holding_registers 65424 = .val (-112) := by
  constructor
  · exact (temperature_decode_characterization.1 219 (by decide)).2.2 (by decide)
  · have h := (temperature_decode_characterization.1 65424 (by decide)).2.1 (by decide)
    simpa using h

/-- C2: every `Temperature` obtained from the validated constructor (any
non-NaN grid value in [−3276.7, 3276.7]) survives the encode/decode round
trip unchanged; the NaN constant is excluded: `try_from` rejects a float
NaN and the NAN sentinel has no valid encoding. -/
theorem temperature_roundtrip :
    (∀ (x : RawFloat) (t : Temperature), Temperature.try_from x = .ok t →
      t.encode_for_write_register.map Temperature.decode_from_holding_registers =
        .ok t) ∧
    Temperature.try_from .nan = .error ⟨.nan⟩ ∧
    (∃ r, Temperature.nan.encode_for_write_register = .error (.encodeError r)) := by
  refine ⟨?_, rfl, ⟨_, rfl⟩⟩
  intro x t h
  cases x with
  | nan => exact Except.noConfusion h
  | num v =>
    have h' : (if Temperature.MIN ≤ v ∧ v ≤ Temperature.MAX then
        Except.ok (Temperature.val v)
      else Except.error (⟨.num v⟩ : ErrorDegreeCelsiusOutOfRange)) = Except.ok t := h
    split_ifs at h' with hv
    · have ht : t = Temperature.val v := (Except.ok.inj h').symm
      subst ht
      have hv1 : (-32767 : Int) ≤ v := hv.1
      have hv2 : v ≤ (32767 : Int) := hv.2
      have he : (Temperature.val v).encode_for_write_register =
          if 0 ≤ v then Except.ok v.toNat else Except.ok (65536 + v).toNat := rfl
      by_cases h0 : 0 ≤ v
      · have hb1 : v.toNat ≠ 0x8000 := by omega
        have hb2 : ¬ 0x8000 < v.toNat := by omega
        have e1 : Temperature.decode_from_holding_registers v.toNat = .val v := by
          unfold Temperature.decode_from_holding_registers
          rw [if_neg hb1, if_neg hb2]
          congr 1
          omega
        rw [he, if_pos h0]
        simp [Except.map, e1]
      · have hb1 : (65536 + v).toNat ≠ 0x8000 := by omega
        have hb2 : 0x8000 < (65536 + v).toNat := by omega
        have e1 : Temperature.decode_from_holding_registers (65536 + v).toNat =
            .val v := by
          unfold Temperature.decode_from_holding_registers
          rw [if_neg hb1, if_pos hb2]
          congr 1
          omega
        rw [he, if_neg h0]
        simp [Except.map, e1]

/-- Witness for C2: the round trip applied at the concrete grid values
21.9 °C and −11.2 °C, produced by the validated constructor. -/
theorem temperature_roundtrip_witness :
    (Temperature.val 219).encode_for_write_register.map
      Temperature.decode_from_holding_registers = .ok (.val 219) ∧
    (Temperature.val (-112)).encode_for_write_register.map
      Temperature.decode_from_holding_registers = .ok (.val (-112)) :=
  ⟨temperature_roundtrip.1 (.num 219) (.val 219) (by decide),
   temperature_roundtrip.1 (.num (-112)) (.val (-112)) (by decide)⟩

/-- C3: `Temperature::encode_for_write_register` fails exactly on the NaN
sentinel; every other valid temperature `v/10` (`v` in tenths, so `v` is
`round(value * 10)`) encodes to the unsigned word `v` when non-negative and
to `65536 + v` (which already fits in 16 bits) when negative; in particular
`encode 3276.7 = 0x7FFF` and `encode (−3276.7) = 0x8001`. -/
theorem temperature_encode_characterization :
    (∀ t : Temperature,
      (∃ e, t.encode_for_write_register = .error e) ↔ t = .nan) ∧
    (∀ v : Int, Temperature.MIN ≤ v → v ≤ Temperature.MAX →
      ((0 ≤ v → (Temperature.val v).encode_for_write_register = .ok v.toNat) ∧
       (v < 0 →
         (Temperature.val v).encode_for_write_register = .ok (65536 + v).toNat ∧
         (65536 + v).toNat < 65536))) ∧
    (Temperature.val 32767).encode_for_write_register = .ok 0x7FFF ∧
    (Temperature.val (-32767)).encode_for_write_register = .ok 0x8001 := by
  refine ⟨?_, ?_, by decide, by decide⟩
  · intro t
    cases t with
    | nan => exact ⟨fun _ => rfl, fun _ => ⟨_, rfl⟩⟩
    | val v =>
      have he : (Temperature.val v).encode_for_write_register =
          if 0 ≤ v then Except.ok v.toNat else Except.ok (65536 + v).toNat := rfl
      constructor
      · rintro ⟨e, hee⟩
        rw [he] at hee
        split_ifs at hee
      · intro h
        exact Temperature.noConfusion h
  · intro v h1 h2
    have h1' : (-32767 : Int) ≤ v := h1
    have he : (Temperature.val v).encode_for_write_register =
        if 0 ≤ v then Except.ok v.toNat else Except.ok (65536 + v).toNat := rfl
    constructor
    · intro h0
      rw [he, if_pos h0]
    · intro hneg
      refine ⟨?_, by omega⟩
      rw [he, if_neg (not_le.mpr hneg)]

/-- Witness for C3: the encoder evaluated through the characterization at
the concrete grid values −3.0 °C and 21.9 °C. -/
theorem temperature_encode_characterization_witness :
    (Temperature.val (-30)).encode_for_write_register = .ok 65506 ∧
    (Temperature.val 219).encode_for_write_register = .ok 219 := by
  constructor
  · have h :=
      ((temperature_encode_characterization.2.1 (-30) (by decide) (by decide)).2
        (by decide)).1
    simpa using h
  · have h :=
      (temperature_encode_characterization.2.1 219 (by decide) (by decide)).1
        (by decide)
    simpa using h

/-- C4: `BaudRate::decode_from_holding_registers` on a one-word slice
accepts exactly the raw codes 0–4, mapped to the rates 1200, 2400, 4800,
9600, 19200; every other code, including the factory-reset sentinel 5,
yields an invalid-value-code error carrying the entity name "BaudRate" and
the offending code. -/
theorem baudrate_decode_characterization :
    (BaudRate.decode_from_holding_registers [0] = .ok .b1200 ∧
      BaudRate.b1200.to_u16 = 1200) ∧
    (BaudRate.decode_from_holding_registers [1] = .ok .b2400 ∧
      BaudRate.b2400.to_u16 = 2400) ∧
    (BaudRate.decode_from_holding_registers [2] = .ok .b4800 ∧
      BaudRate.b4800.to_u16 = 4800) ∧
    (BaudRate.decode_from_holding_registers [3] = .ok .b9600 ∧
      BaudRate.b9600.to_u16 = 9600) ∧
    (BaudRate.decode_from_holding_registers [4] = .ok .b19200 ∧
      BaudRate.b19200.to_u16 = 19200) ∧
    (∀ c : Nat, 5 ≤ c →
      BaudRate.decode_from_holding_registers [c] =
        .error (.invalidValueCode "BaudRate" c)) ∧
    (∀ c : Nat, (∃ b, BaudRate.decode_from_holding_registers [c] = .ok b) ↔ c ≤ 4) := by
  have hbad : ∀ c : Nat, 5 ≤ c →
      BaudRate.decode_from_holding_registers [c] =
        .error (.invalidValueCode "BaudRate" c) := by
    intro c hc
    obtain ⟨d, rfl⟩ : ∃ d, c = d + 5 := ⟨c - 5, by omega⟩
    rfl
  refine ⟨by decide, by decide, by decide, by decide, by decide, hbad, ?_⟩
  intro c
  constructor
  · rintro ⟨b, hb⟩
    by_contra hc
    rw [hbad c (by omega)] at hb
    exact Except.noConfusion hb
  · intro hc
    interval_cases c
    · exact ⟨.b1200, rfl⟩
    · exact ⟨.b2400, rfl⟩
    · exact ⟨.b4800, rfl⟩
    · exact ⟨.b9600, rfl⟩
    · exact ⟨.b19200, rfl⟩

/-- Witness for C4: the decoder applied at the factory-reset sentinel
code 5, rejected with the invalid-value-code error. -/
theorem baudrate_decode_characterization_witness :
    BaudRate.decode_from_holding_registers [5] =
      .error (.invalidValueCode "BaudRate" 5) :=
  baudrate_decode_characterization.2.2.2.2.2.1 5 (by decide)

/-- C5: the address decoder on a one-word slice rejects a non-zero upper
byte with an `InvalidData` error, and otherwise rejects a lower byte
outside [1, 247] with the wrapped out-of-range failure; `Address::try_from`
succeeds exactly on 1..247, so 0, 248 and the broadcast value 255 are all
rejected and no constructed `Address` ever holds 255. -/
theorem address_decode_characterization :
    (∀ w : Nat, w < 65536 → 256 ≤ w →
      Address.decode_from_holding_registers [w] =
        .error (.invalidData (Address.upper_byte_message w))) ∧
    (∀ w : Nat, w < 256 → ¬(1 ≤ w ∧ w ≤ 247) →
      Address.decode_from_holding_registers [w] =
        .error (.invalidData (Address.out_of_range_message w))) ∧
    (∀ w : Nat, w < 256 → 1 ≤ w → w ≤ 247 →
      Address.decode_from_holding_registers [w] = .ok ⟨w⟩) ∧
    (∀ v : Nat, (∃ a, Address.try_from v = .ok a) ↔ (1 ≤ v ∧ v ≤ 247)) ∧
    Address.try_from 0 = .error ⟨0⟩ ∧
    Address.try_from 248 = .error ⟨248⟩ ∧
    Address.try_from 255 = .error ⟨255⟩ ∧
    (∀ (v : Nat) (a : Address), Address.try_from v = .ok a → a.value ≠ 255) := by
  have hd : ∀ w : Nat, Address.decode_from_holding_registers [w] =
      if w / 256 ≠ 0 then
        Except.error (.invalidData (Address.upper_byte_message w))
      else
        match Address.try_from (w % 256) with
        | .ok address => Except.ok address
        | .error e =>
          Except.error (.invalidData (Address.out_of_range_message e.value)) :=
    fun _ => rfl
  have htf : ∀ v : Nat, Address.try_from v =
      if 1 ≤ v ∧ v ≤ 247 then Except.ok (⟨v⟩ : Address) else Except.error ⟨v⟩ :=
    fun _ => rfl
  refine ⟨?_, ?_, ?_, ?_, by decide, by decide, by decide, ?_⟩
  · intro w _ hw
    have hc : w / 256 ≠ 0 := by omega
    rw [hd w, if_pos hc]
  · intro w hw hr
    have hc : ¬ w / 256 ≠ 0 := by omega
    have hm : w % 256 = w := Nat.mod_eq_of_lt hw
    rw [hd w, if_neg hc, hm, htf w, if_neg hr]
  · intro w hw h1 h2
    have hc : ¬ w / 256 ≠ 0 := by omega
    have hm : w % 256 = w := Nat.mod_eq_of_lt hw
    rw [hd w, if_neg hc, hm, htf w, if_pos ⟨h1, h2⟩]
  · intro v
    rw [htf v]
    constructor
    · rintro ⟨a, ha⟩
      by_contra hr
      rw [if_neg hr] at ha
      exact Except.noConfusion ha
    · intro hr
      rw [if_pos hr]
      exact ⟨_, rfl⟩
  · intro v a h
    rw [htf v] at h
    split_ifs at h with hr
    have hv := Except.ok.inj h
    cases hv
    show v ≠ 255
    omega

/-- Witness for C5: the decoder applied at the concrete word 1, accepted
as device address 1. -/
theorem address_decode_characterization_witness :
    Address.decode_from_holding_registers [1] = .ok ⟨1⟩ :=
  address_decode_characterization.2.2.1 1 (by decide) (by decide) (by decide)

/-- C6: both 8-channel array decoders fail on any slice whose length is
not 8 with a length-mismatch error reporting expected 8 and the actual
length, an 8-word slice decodes each word independently by the
single-temperature rule, and the sequence [219, 65424, 32768, 0, 0, 0, 0,
0] decodes to [21.9, −11.2, NAN, 0, 0, 0, 0, 0] (values in tenths). -/
theorem temperature_array_decode_length_and_scenario :
    (∀ words : List Nat, words.length ≠ 8 →
      Temperatures.decode_from_holding_registers words =
        .error (.unexpectedDataLength 8 words.length) ∧
      TemperatureCorrection.decode_from_holding_registers words =
        .error (.unexpectedDataLength 8 words.length)) ∧
    Temperatures.decode_from_holding_registers [219, 65424, 32768, 0, 0, 0, 0, 0] =
      .ok ⟨[.val 219, .val (-112), .nan, .val 0, .val 0, .val 0, .val 0, .val 0]⟩ ∧
    TemperatureCorrection.decode_from_holding_registers
        [219, 65424, 32768, 0, 0, 0, 0, 0] =
      .ok ⟨[.val 219, .val (-112), .nan, .val 0, .val 0, .val 0, .val 0, .val 0]⟩ ∧
    (∀ words : List Nat, words.length = 8 →
      Temperatures.decode_from_holding_registers words =
        .ok ⟨words.map Temperature.decode_from_holding_registers⟩) := by
  have e1 : ∀ words : List Nat, Temperatures.decode_from_holding_registers words =
      if words.length ≠ 8 then
        Except.error (.unexpectedDataLength 8 words.length)
      else Except.ok ⟨words.map Temperature.decode_from_holding_registers⟩ :=
    fun _ => rfl
  have e2 : ∀ words : List Nat,
      TemperatureCorrection.decode_from_holding_registers words =
      if words.length ≠ 8 then
        Except.error (.unexpectedDataLength 8 words.length)
      else Except.ok ⟨words.map Temperature.decode_from_holding_registers⟩ :=
    fun _ => rfl
  refine ⟨?_, by decide, by decide, ?_⟩
  · intro words hw
    exact ⟨by rw [e1 words, if_pos hw], by rw [e2 words, if_pos hw]⟩
  · intro words hw
    have hnn : ¬(words.length ≠ 8) := by omega
    rw [e1 words, if_neg hnn]

/-- Witness for C6: the array decoder rejecting a concrete 2-word slice
with the length-mismatch error. -/
theorem temperature_array_decode_length_and_scenario_witness :
    Temperatures.decode_from_holding_registers [219, 65424] =
      .error (.unexpectedDataLength 8 2) := by
  have h := (temperature_array_decode_length_and_scenario.1 [219, 65424]
    (by decide)).1
  exact h

/-- C7: `AutomaticReport` construction from a duration truncates to whole
seconds and validates the result is at most 255; a 10.5-second duration
yields Ok with `as_secs = 10`, a 256-second duration fails with a range
error carrying the truncated second count 256 regardless of any sub-second
part. -/
theorem automatic_report_from_duration :
    (∀ d : Duration, d.as_secs ≤ 255 →
      AutomaticReport.try_from_duration d = .ok ⟨d.as_secs⟩ ∧
      (AutomaticReport.mk d.as_secs).as_secs = d.as_secs) ∧
    (∀ d : Duration, 255 < d.as_secs →
      AutomaticReport.try_from_duration d = .error ⟨d.as_secs⟩) ∧
    (Duration.from_millis 10500).as_secs = 10 ∧
    AutomaticReport.try_from_duration (Duration.from_millis 10500) = .ok ⟨10⟩ ∧
    AutomaticReport.try_from_duration (Duration.from_secs 256) = .error ⟨256⟩ ∧
    (∀ nanos : Nat,
      AutomaticReport.try_from_duration ⟨256, nanos⟩ = .error ⟨256⟩) := by
  have he : ∀ d : Duration, AutomaticReport.try_from_duration d =
      if 0 ≤ d.secs ∧ d.secs ≤ 255 then Except.ok (⟨d.secs⟩ : AutomaticReport)
      else Except.error ⟨d.secs⟩ :=
    fun _ => rfl
  refine ⟨?_, ?_, by decide, by decide, by decide, ?_⟩
  · intro d h
    refine ⟨?_, rfl⟩
    rw [he d, if_pos ⟨Nat.zero_le _, h⟩]
    rfl
  · intro d h
    have h' : 255 < d.secs := h
    have hn : ¬(0 ≤ d.secs ∧ d.secs ≤ 255) := by omega
    rw [he d, if_neg hn]
    rfl
  · intro nanos
    have hn : ¬((0:Nat) ≤ 256 ∧ (256:Nat) ≤ 255) := by omega
    rw [he ⟨256, nanos⟩, if_neg hn]

/-- Witness for C7: construction applied at the concrete 10.5-second
duration (10 s + 500 ms), accepted with 10 whole seconds. -/
theorem automatic_report_from_duration_witness :
    AutomaticReport.try_from_duration ⟨10, 500000000⟩ = .ok ⟨10⟩ :=
  (automatic_report_from_duration.1 ⟨10, 500000000⟩ (by decide)).1

/-- C8: for every channel accepted by the validated constructor (0..7),
`TemperatureCorrection::channel_address` is the base write address
`0x0008` plus the channel index. -/
theorem channel_address_computation :
    ∀ (c : Nat) (ch : Channel), Channel.try_from c = .ok ch →
      TemperatureCorrection.channel_address ch = 0x0008 + c := by
  intro c ch h
  have he : Channel.try_from c =
      if 0 ≤ c ∧ c ≤ 7 then Except.ok (⟨c⟩ : Channel) else Except.error ⟨c⟩ := rfl
  rw [he] at h
  split_ifs at h with hc
  have hv := Except.ok.inj h
  cases hv
  rfl

/-- Witness for C8: the address computation applied at the validated
channel 3, giving register 0x000B. -/
theorem channel_address_computation_witness :
    TemperatureCorrection.channel_address ⟨3⟩ = 0x0008 + 3 :=
  channel_address_computation 3 ⟨3⟩ (by decide)

/-- C9: single-word temperature decoding is total — every word yields
either the NAN sentinel or a numeric value — and consequently each
8-channel array decoder succeeds exactly on slices of length 8: the length
mismatch is its only failure mode. -/
theorem temperature_decode_total :
    (∀ w : Nat, Temperature.decode_from_holding_registers w = .nan ∨
      ∃ t : Int, Temperature.decode_from_holding_registers w = .val t) ∧
    (∀ words : List Nat,
      (∃ ts, Temperatures.decode_from_holding_registers words = .ok ts) ↔
        words.length = 8) ∧
    (∀ words : List Nat,
      (∃ cs, TemperatureCorrection.decode_from_holding_registers words = .ok cs) ↔
        words.length = 8) := by
  have e1 : ∀ words : List Nat, Temperatures.decode_from_holding_registers words =
      if words.length ≠ 8 then
        Except.error (.unexpectedDataLength 8 words.length)
      else Except.ok ⟨words.map Temperature.decode_from_holding_registers⟩ :=
    fun _ => rfl
  have e2 : ∀ words : List Nat,
      TemperatureCorrection.decode_from_holding_registers words =
      if words.length ≠ 8 then
        Except.error (.unexpectedDataLength 8 words.length)
      else Except.ok ⟨words.map Temperature.decode_from_holding_registers⟩ :=
    fun _ => rfl
  refine ⟨?_, ?_, ?_⟩
  · intro w
    unfold Temperature.decode_from_holding_registers
    split_ifs
    · exact Or.inl rfl
    · exact Or.inr ⟨_, rfl⟩
    · exact Or.inr ⟨_, rfl⟩
  · intro words
    constructor
    · rintro ⟨ts, hts⟩
      by_contra hne
      rw [e1 words, if_pos hne] at hts
      exact Except.noConfusion hts
    · intro hl
      have hnn : ¬(words.length ≠ 8) := by omega
      rw [e1 words, if_neg hnn]
      exact ⟨_, rfl⟩
  · intro words
    constructor
    · rintro ⟨cs, hcs⟩
      by_contra hne
      rw [e2 words, if_pos hne] at hcs
      exact Except.noConfusion hcs
    · intro hl
      have hnn : ¬(words.length ≠ 8) := by omega
      rw [e2 words, if_neg hnn]
      exact ⟨_, rfl⟩

/-- Witness for C9: the array decoder succeeding on a concrete 8-word
slice of arbitrary word values. -/
theorem temperature_decode_total_witness :
    ∃ ts, Temperatures.decode_from_holding_registers
      [0, 65535, 32768, 32767, 1, 2, 3, 4] = .ok ts :=
  (temperature_decode_total.2.1 [0, 65535, 32768, 32767, 1, 2, 3, 4]).mpr rfl

/-- C10: the `Index<usize>` operator of `Temperatures` and
`TemperatureCorrection` takes a raw unvalidated index, returns the stored
element for indices 0–7 of any decoded value, and panics (modelled as
`none`) for every index ≥ 8. -/
theorem index_panics_out_of_bounds :
    ∀ (words : List Nat) (ts : Temperatures) (cs : TemperatureCorrection),
      Temperatures.decode_from_holding_registers words = .ok ts →
      TemperatureCorrection.decode_from_holding_registers words = .ok cs →
      (∀ i : Nat, i < 8 →
        ts.index i = (words[i]?).map Temperature.decode_from_holding_registers ∧
        (ts.index i).isSome = true ∧ (cs.index i).isSome = true) ∧
      (∀ i : Nat, 8 ≤ i → ts.index i = none ∧ cs.index i = none) := by
  intro words ts cs hts hcs
  have e1 : Temperatures.decode_from_holding_registers words =
      if words.length ≠ 8 then
        Except.error (.unexpectedDataLength 8 words.length)
      else Except.ok ⟨words.map Temperature.decode_from_holding_registers⟩ := rfl
  have e2 : TemperatureCorrection.decode_from_holding_registers words =
      if words.length ≠ 8 then
        Except.error (.unexpectedDataLength 8 words.length)
      else Except.ok ⟨words.map Temperature.decode_from_holding_registers⟩ := rfl
  by_cases hl : words.length = 8
  · have hnn : ¬(words.length ≠ 8) := by omega
    rw [e1, if_neg hnn] at hts
    rw [e2, if_neg hnn] at hcs
    have hts' := Except.ok.inj hts
    have hcs' := Except.ok.inj hcs
    subst hts'
    subst hcs'
    have hml : (words.map Temperature.decode_from_holding_registers).length = 8 := by
      rw [List.length_map]
      exact hl
    constructor
    · intro i hi
      refine ⟨?_, ?_, ?_⟩
      · show (words.map Temperature.decode_from_holding_registers)[i]? = _
        exact List.getElem?_map _ _ _
      · show ((words.map Temperature.decode_from_holding_registers)[i]?).isSome = true
        rw [List.getElem?_eq_getElem (by omega)]
        rfl
      · show ((words.map Temperature.decode_from_holding_registers)[i]?).isSome = true
        rw [List.getElem?_eq_getElem (by omega)]
        rfl
    · intro i hi
      constructor
      · show (words.map Temperature.decode_from_holding_registers)[i]? = none
        exact List.getElem?_eq_none (by omega)
      · show (words.map Temperature.decode_from_holding_registers)[i]? = none
        exact List.getElem?_eq_none (by omega)
  · rw [e1, if_pos hl] at hts
    exact Except.noConfusion hts

/-- Witness for C10: indexing a concrete decoded 8-element value at
position 8 hits the out-of-bounds panic (`none`). -/
theorem index_panics_out_of_bounds_witness :
    ({ temps := [.val 0, .val 0, .val 0, .val 0, .val 0, .val 0, .val 0, .val 0] } :
      Temperatures).index 8 = none := by
  have h := (index_panics_out_of_bounds [0, 0, 0, 0, 0, 0, 0, 0]
    ⟨[.val 0, .val 0, .val 0, .val 0, .val 0, .val 0, .val 0, .val 0]⟩
    ⟨[.val 0, .val 0, .val 0, .val 0, .val 0, .val 0, .val 0, .val 0]⟩
    (by decide) (by decide)).2 8 (by decide)
  exact h.1

end R4DCB08
